import Mathlib

/-!
# Verification of the alt-core scenario execution engine

Shallow embedding of the core of the `alt-core-js` integration-test runner:

* `MqttAction` (src/model/MqttAction.ts): MQTT subscribe action — connection
  event handling, message relevance filtering, received-message counting,
  close-time count check.
* `MqttPublishAction` (src/model/MqttPublishAction.ts): MQTT publish action.
* `WebSocketAction` (src/model/WebSocketAction.ts): WebSocket action with
  bounded reconnection and initial-payload send.
* `RestAction` (src/model/RestAction.ts): REST action — expected status
  codes, header/body validation, scenario-cache variable writes, template
  merge, retrying transport configuration.
* The scenario runner loop (src/index.ts, `invokeActionsSynchronously`).

JavaScript promises settle at most once: the first `resolve`/`reject` wins
and later calls are no-ops.  This is modelled by `settle` below.  Node-style
event handlers are modelled as a step function over an explicit event trace;
the per-invocation mutable state (which, in the source, partly lives on the
action object itself) is threaded explicitly.
-/

/-- Settlement of a JS promise: resolved (fulfilled) or rejected. -/
inductive Settled where
  | resolved
  | rejected
deriving DecidableEq, Repr

/-- First settlement wins: settling an already-settled promise is a no-op. -/
def settle (cur : Option Settled) (v : Settled) : Option Settled :=
  match cur with
  | none => some v
  | some w => some w

theorem settle_of_none {v : Settled} : settle none v = some v := rfl

theorem settle_of_some {w v : Settled} : settle (some w) v = some w := rfl

/-- A decoded message payload (MQTT / WebSocket), abstracted to an identity. -/
structure Msg where
  id : Nat
deriving DecidableEq, Repr

/-! ## MQTT subscribe action (src/model/MqttAction.ts) -/

/-- The fields of `MqttAction` that the subscribe-invocation semantics reads
and writes.  `messageFilter` is `none` when the action definition has no
`messageFilter` field (JS `undefined`, falsy) and `some fs` when a filter
list is configured (a JS array, truthy even when empty).  Each filter is the
denotation of one predicate expression evaluated with `msg` bound to the
decoded payload.  `numberOfReceivedMessages` is an instance field of the
action object (line 38) initialised to 0 and incremented by the message
handler. -/
structure MqttAction where
  expectedNumberOfMessages : Nat
  messageFilter : Option (List (Msg → Bool))
  numberOfReceivedMessages : Nat := 0

/-- `isMessageRelevant` (MqttAction.ts lines 151-167): if a filter list is
configured, the message is relevant iff some filter evaluates truthy;
without a configured filter list every message is relevant. -/
def isMessageRelevant (a : MqttAction) (msg : Msg) : Bool :=
  match a.messageFilter with
  | some filters => filters.any (fun f => f msg)
  | none => true

/-- Events delivered to the MQTT client handlers during one subscribe
invocation.  `close` is emitted when the connection ends — in particular
when the `setTimeout(() => client.end(), durationInSec * 1000)` timer armed
on connect (line 216) fires, i.e. when the listen window closes.
`subscribeError` is the error branch of the subscribe callback (lines
198-208), `connectionError` the client `error` handler (lines 282-292). -/
inductive MqttEvent where
  | message (m : Msg)
  | subscribeError
  | connectionError
  | close
deriving DecidableEq, Repr

/-- State of one MQTT subscribe invocation: the action object (whose
`numberOfReceivedMessages` field the handlers mutate) and the settlement
state of the invocation promise. -/
structure MqttInvocationState where
  action : MqttAction
  settled : Option Settled

/-- One handler step of `invokeAsync` (MqttAction.ts lines 135-293):
* `message` (lines 219-256): decode, and if `isMessageRelevant` increment
  `numberOfReceivedMessages`; irrelevant messages are only logged.  The
  handler never settles the promise.
* `subscribeError` / `connectionError`: `reject()`.
* `close` (lines 262-280): `resolve()` iff the received count equals
  `expectedNumberOfMessages`, else `reject()`. -/
def mqttStep (s : MqttInvocationState) : MqttEvent → MqttInvocationState
  | .message m =>
      if isMessageRelevant s.action m then
        { s with
          action :=
            { s.action with
              numberOfReceivedMessages :=
                s.action.numberOfReceivedMessages + 1 } }
      else s
  | .subscribeError => { s with settled := settle s.settled .rejected }
  | .connectionError => { s with settled := settle s.settled .rejected }
  | .close =>
      if s.action.numberOfReceivedMessages = s.action.expectedNumberOfMessages
      then { s with settled := settle s.settled .resolved }
      else { s with settled := settle s.settled .rejected }

/-- Run the handlers of one subscribe invocation over an event trace,
starting from a fresh promise. -/
def mqttRunFrom (s : MqttInvocationState) (events : List MqttEvent) :
    MqttInvocationState :=
  events.foldl mqttStep s

/-- A whole subscribe invocation of action `a` over event trace `events`. -/
def mqttRun (a : MqttAction) (events : List MqttEvent) : MqttInvocationState :=
  mqttRunFrom { action := a, settled := none } events

/-- An event that can settle the invocation promise: a close or an error.
Message events never settle. -/
def MqttEvent.isSettling : MqttEvent → Bool
  | .message _ => false
  | .subscribeError => true
  | .connectionError => true
  | .close => true

theorem mqttRunFrom_nil (s : MqttInvocationState) : mqttRunFrom s [] = s := rfl

theorem mqttRunFrom_cons (s : MqttInvocationState) (e : MqttEvent)
    (es : List MqttEvent) :
    mqttRunFrom s (e :: es) = mqttRunFrom (mqttStep s e) es := rfl

theorem mqttRunFrom_append (s : MqttInvocationState)
    (l₁ l₂ : List MqttEvent) :
    mqttRunFrom s (l₁ ++ l₂) = mqttRunFrom (mqttRunFrom s l₁) l₂ :=
  List.foldl_append ..

/-- A step never changes the action's configuration fields. -/
theorem mqttStep_config (s : MqttInvocationState) (e : MqttEvent) :
    (mqttStep s e).action.expectedNumberOfMessages =
        s.action.expectedNumberOfMessages ∧
      (mqttStep s e).action.messageFilter = s.action.messageFilter := by
  cases e with
  | message m =>
      by_cases h : isMessageRelevant s.action m <;>
        simp [mqttStep, h]
  | subscribeError => exact ⟨rfl, rfl⟩
  | connectionError => exact ⟨rfl, rfl⟩
  | close =>
      by_cases h :
          s.action.numberOfReceivedMessages =
            s.action.expectedNumberOfMessages <;>
        simp [mqttStep, h]

/-- Settlement is permanent: once the promise is settled, every later event
leaves the settlement unchanged (later `resolve`/`reject` calls are
no-ops). -/
theorem mqttRunFrom_settled_permanent (events : List MqttEvent) :
    ∀ s : MqttInvocationState, ∀ v : Settled, s.settled = some v →
      (mqttRunFrom s events).settled = some v := by
  induction events with
  | nil => intro s v h; simpa [mqttRunFrom_nil] using h
  | cons e es ih =>
      intro s v h
      rw [mqttRunFrom_cons]
      apply ih
      cases e with
      | message m =>
          by_cases hrel : isMessageRelevant s.action m <;>
            simp [mqttStep, hrel, h]
      | subscribeError => simp [mqttStep, h, settle]
      | connectionError => simp [mqttStep, h, settle]
      | close =>
          by_cases hc :
              s.action.numberOfReceivedMessages =
                s.action.expectedNumberOfMessages <;>
            simp [mqttStep, hc, h, settle]

/-- Over a trace of non-settling events (messages only), the settlement
state is unchanged. -/
theorem mqttRunFrom_settled_of_no_settling (events : List MqttEvent) :
    ∀ s : MqttInvocationState,
      (∀ e ∈ events, e.isSettling = false) →
      (mqttRunFrom s events).settled = s.settled := by
  induction events with
  | nil => intro s _; rfl
  | cons e es ih =>
      intro s h
      rw [mqttRunFrom_cons]
      have he : e.isSettling = false := h e (List.mem_cons_self ..)
      have hes : ∀ x ∈ es, x.isSettling = false := fun x hx =>
        h x (List.mem_cons_of_mem _ hx)
      rw [ih _ hes]
      cases e with
      | message m =>
          by_cases hrel : isMessageRelevant s.action m <;>
            simp [mqttStep, hrel]
      | subscribeError => simp [MqttEvent.isSettling] at he
      | connectionError => simp [MqttEvent.isSettling] at he
      | close => simp [MqttEvent.isSettling] at he

/-- The configured expected message count is never changed by running
events. -/
theorem mqttRunFrom_expected (events : List MqttEvent) :
    ∀ s : MqttInvocationState,
      (mqttRunFrom s events).action.expectedNumberOfMessages =
        s.action.expectedNumberOfMessages := by
  induction events with
  | nil => intro s; rfl
  | cons e es ih =>
      intro s
      rw [mqttRunFrom_cons, ih]
      exact (mqttStep_config s e).1

/-- Characterization of a successful MQTT subscribe invocation: the promise
resolves iff the trace has a close event that is preceded by no other
settling event (no error, no earlier close) and at which the received count
equals the expected count. -/
theorem mqttRunFrom_resolved_iff (events : List MqttEvent) :
    ∀ s : MqttInvocationState, s.settled = none →
      ((mqttRunFrom s events).settled = some .resolved ↔
        ∃ pre post, events = pre ++ MqttEvent.close :: post ∧
          (∀ e ∈ pre, e.isSettling = false) ∧
          (mqttRunFrom s pre).action.numberOfReceivedMessages =
            (mqttRunFrom s pre).action.expectedNumberOfMessages) := by
  induction events with
  | nil =>
      intro s hs
      simp only [mqttRunFrom_nil, hs]
      constructor
      · intro h; exact absurd h (by simp)
      · rintro ⟨pre, post, hev, -, -⟩
        exact absurd hev.symm (List.append_ne_nil_of_right_ne_nil _ (by simp))
  | cons e es ih =>
      intro s hs
      rw [mqttRunFrom_cons]
      cases e with
      | message m =>
          have hset : (mqttStep s (.message m)).settled = none := by
            by_cases hrel : isMessageRelevant s.action m <;>
              simp [mqttStep, hrel, hs]
          rw [ih _ hset]
          constructor
          · rintro ⟨pre, post, hev, hns, hcount⟩
            refine ⟨MqttEvent.message m :: pre, post, by rw [hev]; rfl,
              ?_, ?_⟩
            · intro x hx
              rcases List.mem_cons.mp hx with hx | hx
              · subst hx; rfl
              · exact hns x hx
            · rw [mqttRunFrom_cons]; exact hcount
          · rintro ⟨pre, post, hev, hns, hcount⟩
            cases pre with
            | nil => exact absurd (List.head_eq_of_cons_eq hev) (by simp)
            | cons p pre =>
                have hp : p = MqttEvent.message m :=
                  (List.head_eq_of_cons_eq hev).symm
                subst hp
                refine ⟨pre, post, List.tail_eq_of_cons_eq hev, ?_, ?_⟩
                · intro x hx; exact hns x (List.mem_cons_of_mem _ hx)
                · rw [mqttRunFrom_cons] at hcount; exact hcount
      | subscribeError =>
          have hset : (mqttStep s .subscribeError).settled =
              some .rejected := by simp [mqttStep, hs, settle]
          rw [mqttRunFrom_settled_permanent es _ _ hset]
          constructor
          · intro h; exact absurd h (by simp)
          · rintro ⟨pre, post, hev, hns, -⟩
            cases pre with
            | nil => exact absurd (List.head_eq_of_cons_eq hev) (by simp)
            | cons p pre =>
                have hp : p = MqttEvent.subscribeError :=
                  (List.head_eq_of_cons_eq hev).symm
                have := hns p (List.mem_cons_self ..)
                rw [hp] at this
                exact absurd this (by simp [MqttEvent.isSettling])
      | connectionError =>
          have hset : (mqttStep s .connectionError).settled =
              some .rejected := by simp [mqttStep, hs, settle]
          rw [mqttRunFrom_settled_permanent es _ _ hset]
          constructor
          · intro h; exact absurd h (by simp)
          · rintro ⟨pre, post, hev, hns, -⟩
            cases pre with
            | nil => exact absurd (List.head_eq_of_cons_eq hev) (by simp)
            | cons p pre =>
                have hp : p = MqttEvent.connectionError :=
                  (List.head_eq_of_cons_eq hev).symm
                have := hns p (List.mem_cons_self ..)
                rw [hp] at this
                exact absurd this (by simp [MqttEvent.isSettling])
      | close =>
          by_cases hc :
              s.action.numberOfReceivedMessages =
                s.action.expectedNumberOfMessages
          · have hset : (mqttStep s .close).settled = some .resolved := by
              simp [mqttStep, hc, hs, settle]
            rw [mqttRunFrom_settled_permanent es _ _ hset]
            constructor
            · intro _
              exact ⟨[], es, rfl, by simp, by simpa [mqttRunFrom_nil] using hc⟩
            · intro _; rfl
          · have hset : (mqttStep s .close).settled = some .rejected := by
              simp [mqttStep, hc, hs, settle]
            rw [mqttRunFrom_settled_permanent es _ _ hset]
            constructor
            · intro h; exact absurd h (by simp)
            · rintro ⟨pre, post, hev, hns, hcount⟩
              cases pre with
              | nil =>
                  rw [mqttRunFrom_nil] at hcount
                  exact absurd hcount hc
              | cons p pre =>
                  have hp : p = MqttEvent.close :=
                    (List.head_eq_of_cons_eq hev).symm
                  have := hns p (List.mem_cons_self ..)
                  rw [hp] at this
                  exact absurd this (by simp [MqttEvent.isSettling])

/-- An MQTT subscribe action expecting 0 messages, with no configured
filter. -/
def mqttZeroExpected : MqttAction :=
  { expectedNumberOfMessages := 0, messageFilter := none }

/-- A trace in which the subscription fails (the subscribe callback gets an
error and `reject()`s) and the listen window later closes with the received
count (0) equal to the expected count (0). -/
def mqttErrorThenCloseTrace : List MqttEvent :=
  [MqttEvent.subscribeError, MqttEvent.close]

/-- C1, counterexample to the claim as stated.  The claim says the
invocation succeeds if and only if at the moment the listen window closes
the received count equals the expected count.  On the trace where the
subscribe callback reports an error and the window then closes with
0 = 0 received/expected messages, the count at close equals the expected
count yet the invocation was already rejected by the error: the "if"
direction fails. -/
theorem mqttSubscribe_close_iff_counterexample :
    ¬ (((mqttRun mqttZeroExpected mqttErrorThenCloseTrace).settled =
          some Settled.resolved) ↔
        (mqttRunFrom { action := mqttZeroExpected, settled := none }
              [MqttEvent.subscribeError]).action.numberOfReceivedMessages =
          mqttZeroExpected.expectedNumberOfMessages) := by
  decide

/-- C1, amended: (success characterization) the invocation succeeds iff the
trace contains a close event preceded by no error and no earlier close, at
which the received count equals the expected count; (no early exit) a trace
of message deliveries alone — in particular one that reaches the expected
count before the listen-duration timer fires — never settles the
invocation; (mismatch fails) if at the first settling event, a close, the
count differs from the expected count, the invocation is rejected. -/
theorem mqttSubscribe_completion (a : MqttAction) (events : List MqttEvent) :
    ((mqttRun a events).settled = some Settled.resolved ↔
      ∃ pre post, events = pre ++ MqttEvent.close :: post ∧
        (∀ e ∈ pre, e.isSettling = false) ∧
        (mqttRunFrom { action := a, settled := none }
            pre).action.numberOfReceivedMessages =
          a.expectedNumberOfMessages) ∧
    ((∀ e ∈ events, e.isSettling = false) →
      (mqttRun a events).settled = none) ∧
    (∀ pre post, events = pre ++ MqttEvent.close :: post →
      (∀ e ∈ pre, e.isSettling = false) →
      (mqttRunFrom { action := a, settled := none }
          pre).action.numberOfReceivedMessages ≠
        a.expectedNumberOfMessages →
      (mqttRun a events).settled = some Settled.rejected) := by
  refine ⟨?_, ?_, ?_⟩
  · have h := mqttRunFrom_resolved_iff events
      { action := a, settled := none } rfl
    rw [mqttRun, h]
    constructor
    · rintro ⟨pre, post, hev, hns, hcount⟩
      refine ⟨pre, post, hev, hns, ?_⟩
      rw [hcount, mqttRunFrom_expected]
    · rintro ⟨pre, post, hev, hns, hcount⟩
      refine ⟨pre, post, hev, hns, ?_⟩
      rw [mqttRunFrom_expected]
      exact hcount
  · intro h
    exact mqttRunFrom_settled_of_no_settling events _ h
  · intro pre post hev hns hcount
    rw [mqttRun, hev, mqttRunFrom_append, mqttRunFrom_cons]
    have hpre : (mqttRunFrom { action := a, settled := none } pre).settled =
        none := mqttRunFrom_settled_of_no_settling pre _ hns
    have hexp : (mqttRunFrom { action := a, settled := none }
        pre).action.expectedNumberOfMessages = a.expectedNumberOfMessages :=
      mqttRunFrom_expected pre _
    apply mqttRunFrom_settled_permanent
    simp [mqttStep, hexp, hcount, hpre, settle]

/-- An MQTT subscribe action expecting exactly one message. -/
def mqttOneExpected : MqttAction :=
  { expectedNumberOfMessages := 1, messageFilter := none }

/-- Witness for `mqttSubscribe_completion` at concrete inputs: a trace of
two relevant messages with no close never settles (no early exit even past
the expected count), and a single relevant message followed by the
window close resolves the invocation. -/
theorem mqttSubscribe_completion_witness :
    (mqttRun mqttOneExpected
        [MqttEvent.message ⟨5⟩, MqttEvent.message ⟨6⟩]).settled = none ∧
    (mqttRun mqttOneExpected
        [MqttEvent.message ⟨5⟩, MqttEvent.close]).settled =
      some Settled.resolved :=
  ⟨(mqttSubscribe_completion mqttOneExpected
        [MqttEvent.message ⟨5⟩, MqttEvent.message ⟨6⟩]).2.1 (by decide),
    (mqttSubscribe_completion mqttOneExpected
        [MqttEvent.message ⟨5⟩, MqttEvent.close]).1.mpr
      ⟨[MqttEvent.message ⟨5⟩], [], rfl, by decide, by decide⟩⟩

/-- C6: a message is relevant iff no filter list is configured or some
configured filter predicate evaluates truthy on the decoded payload, and
the message handler increments the received count exactly when the message
is relevant: a message for which every filter is falsy leaves the count
unchanged. -/
theorem mqttMessage_relevance (a : MqttAction) (m : Msg)
    (s : MqttInvocationState) :
    (isMessageRelevant a m = true ↔
      a.messageFilter = none ∨
        ∃ fs, a.messageFilter = some fs ∧ ∃ f ∈ fs, f m = true) ∧
    (isMessageRelevant s.action m = false →
      (mqttStep s (.message m)).action.numberOfReceivedMessages =
        s.action.numberOfReceivedMessages) ∧
    (isMessageRelevant s.action m = true →
      (mqttStep s (.message m)).action.numberOfReceivedMessages =
        s.action.numberOfReceivedMessages + 1) := by
  refine ⟨?_, ?_, ?_⟩
  · cases hf : a.messageFilter with
    | none => simp [isMessageRelevant, hf]
    | some fs =>
        simp only [isMessageRelevant, hf, List.any_eq_true]
        constructor
        · rintro ⟨f, hmem, htrue⟩
          exact Or.inr ⟨fs, rfl, f, hmem, htrue⟩
        · rintro (h | ⟨fs', hfs', f, hmem, htrue⟩)
          · exact absurd h (by simp)
          · obtain rfl : fs = fs' := Option.some_injective _ hfs'
            exact ⟨f, hmem, htrue⟩
  · intro h; simp [mqttStep, h]
  · intro h; simp [mqttStep, h]

/-- Witness for `mqttMessage_relevance`: with the configured filter list
`[msg.id == 1]`, the message with id 2 fails every filter and the handler
leaves the count unchanged, while the message with id 1 is relevant. -/
theorem mqttMessage_relevance_witness :
    (mqttStep
        { action :=
            { expectedNumberOfMessages := 2,
              messageFilter := some [fun m => m.id == 1] },
          settled := none }
        (.message ⟨2⟩)).action.numberOfReceivedMessages =
      (0 : Nat) ∧
    isMessageRelevant
        { expectedNumberOfMessages := 2,
          messageFilter := some [fun m => m.id == 1] } ⟨1⟩ = true :=
  ⟨(mqttMessage_relevance
        { expectedNumberOfMessages := 2,
          messageFilter := some [fun m => m.id == 1] } ⟨2⟩
        { action :=
            { expectedNumberOfMessages := 2,
              messageFilter := some [fun m => m.id == 1] },
          settled := none }).2.1 (by decide),
    (mqttMessage_relevance
        { expectedNumberOfMessages := 2,
          messageFilter := some [fun m => m.id == 1] } ⟨1⟩
        { action :=
            { expectedNumberOfMessages := 2,
              messageFilter := some [fun m => m.id == 1] },
          settled := none }).1.mpr
      (Or.inr ⟨[fun m => m.id == 1], rfl, fun m => m.id == 1, by simp,
        by decide⟩)⟩

/-! ## WebSocket action (src/model/WebSocketAction.ts) -/

/-- `MAX_RECONNECTIONS` (WebSocketAction.ts line 15). -/
def MAX_RECONNECTIONS : Nat := 3

/-- The fields of `WebSocketAction` that the invocation semantics reads and
writes.  `data` is the configured initial payload (`none` when absent,
i.e. JS falsy).  `reconnected` (line 28) counts reconnections already
performed and `receivedMessages` (line 42) is the JS `Set` of raw relevant
messages, both instance fields of the action object mutated by the
handlers.  A raw message is abstracted to its identity `Msg`; set insertion
deduplicates by that identity. -/
structure WebSocketAction where
  data : Option String
  expectedNumberOfMessages : Nat
  messageFilter : Option (List (Msg → Bool))
  reconnected : Nat := 0
  receivedMessages : List Msg := []

/-- The WebSocket variant of `isMessageRelevant` (WebSocketAction.ts lines
146-162): identical logic to the MQTT one. -/
def wsIsMessageRelevant (a : WebSocketAction) (msg : Msg) : Bool :=
  match a.messageFilter with
  | some filters => filters.any (fun f => f msg)
  | none => true

/-- JS `Set.add`: insert if not already present. -/
def wsInsert (l : List Msg) (m : Msg) : List Msg :=
  if m ∈ l then l else l ++ [m]

/-- State of one WebSocket invocation: the action object (whose
`reconnected` / `receivedMessages` fields the handlers mutate), the number
of times the initial payload has been sent over the socket, and the
settlement of the invocation promise. -/
structure WsState where
  action : WebSocketAction
  payloadSends : Nat
  settled : Option Settled

/-- The `open` handler (WebSocketAction.ts lines 168-176): send the
configured payload iff one is configured and `reconnected === 0`. -/
def wsOpen (s : WsState) : WsState :=
  if s.action.data.isSome ∧ s.action.reconnected = 0 then
    { s with payloadSends := s.payloadSends + 1 }
  else s

/-- The `message` handler (lines 178-187): if relevant, add the raw message
to the received set; irrelevant messages are dropped. -/
def wsMessage (s : WsState) (m : Msg) : WsState :=
  if wsIsMessageRelevant s.action m then
    { s with
      action :=
        { s.action with
          receivedMessages := wsInsert s.action.receivedMessages m } }
  else s

/-- The `close` handler (lines 189-207).  On close code 1006 with
`reconnected <= MAX_RECONNECTIONS`, increment `reconnected` and re-run the
invocation (the boolean component is `true` exactly when this reconnect
branch is taken).  Otherwise settle: resolve iff the received-set size
equals the expected count, else reject. -/
def wsClose (s : WsState) (code : Nat) : WsState × Bool :=
  if code = 1006 ∧ s.action.reconnected ≤ MAX_RECONNECTIONS then
    ({ s with
        action := { s.action with reconnected := s.action.reconnected + 1 } },
      true)
  else if s.action.receivedMessages.length = s.action.expectedNumberOfMessages
  then ({ s with settled := settle s.settled .resolved }, false)
  else ({ s with settled := settle s.settled .rejected }, false)

/-- The `error` handler (lines 209-212): reject. -/
def wsError (s : WsState) : WsState :=
  { s with settled := settle s.settled .rejected }

/-- All messages of one socket session, in order. -/
def wsRunMsgs (s : WsState) (msgs : List Msg) : WsState :=
  msgs.foldl wsMessage s

/-- One socket session: an open, a sequence of inbound messages, then a
close with the given code. -/
structure WsSession where
  msgs : List Msg
  closeCode : Nat

/-- A whole WebSocket invocation: run the first session; while the close
handler takes the reconnect branch, `invokeAsync` is re-entered and the next
session runs; a non-reconnecting close settles the promise and ends the
run. -/
def wsRun (s : WsState) : List WsSession → WsState
  | [] => s
  | sess :: rest =>
      let s2 := wsClose (wsRunMsgs (wsOpen s) sess.msgs) sess.closeCode
      if s2.2 then wsRun s2.1 rest else s2.1

theorem wsRunMsgs_sends_reconnected (msgs : List Msg) :
    ∀ s : WsState, (wsRunMsgs s msgs).payloadSends = s.payloadSends ∧
      (wsRunMsgs s msgs).action.reconnected = s.action.reconnected := by
  induction msgs with
  | nil => intro s; exact ⟨rfl, rfl⟩
  | cons m ms ih =>
      intro s
      have h := ih (wsMessage s m)
      have hm : (wsMessage s m).payloadSends = s.payloadSends ∧
          (wsMessage s m).action.reconnected = s.action.reconnected := by
        by_cases hrel : wsIsMessageRelevant s.action m <;>
          simp [wsMessage, hrel]
      exact ⟨by rw [wsRunMsgs, List.foldl_cons, ← wsRunMsgs, h.1, hm.1],
        by rw [wsRunMsgs, List.foldl_cons, ← wsRunMsgs, h.2, hm.2]⟩

theorem wsClose_payloadSends (s : WsState) (code : Nat) :
    (wsClose s code).1.payloadSends = s.payloadSends := by
  by_cases h : code = 1006 ∧ s.action.reconnected ≤ MAX_RECONNECTIONS
  · simp [wsClose, h]
  · by_cases hc :
        s.action.receivedMessages.length =
          s.action.expectedNumberOfMessages <;>
      simp [wsClose, h, hc]

theorem wsClose_reconnected_le (s : WsState) (code : Nat) :
    s.action.reconnected ≤ (wsClose s code).1.action.reconnected := by
  by_cases h : code = 1006 ∧ s.action.reconnected ≤ MAX_RECONNECTIONS
  · simp [wsClose, h]
  · by_cases hc :
        s.action.receivedMessages.length =
          s.action.expectedNumberOfMessages <;>
      simp [wsClose, h, hc]

/-- After the first reconnection, no session ever sends the initial payload
again: the payload-send count is frozen. -/
theorem wsRun_sends_frozen (sessions : List WsSession) :
    ∀ s : WsState, 1 ≤ s.action.reconnected →
      (wsRun s sessions).payloadSends = s.payloadSends := by
  induction sessions with
  | nil => intro s _; rfl
  | cons sess rest ih =>
      intro s hs
      have hopen : wsOpen s = s := by
        have : ¬ (s.action.data.isSome ∧ s.action.reconnected = 0) := by
          rintro ⟨-, h0⟩; omega
        simp [wsOpen, this]
      have hmsgs := wsRunMsgs_sends_reconnected sess.msgs (wsOpen s)
      rw [wsRun]
      by_cases hrec :
          (wsClose (wsRunMsgs (wsOpen s) sess.msgs) sess.closeCode).2
      · rw [if_pos hrec, ih]
        · rw [wsClose_payloadSends, hmsgs.1, hopen]
        · calc 1 ≤ s.action.reconnected := hs
            _ = (wsRunMsgs (wsOpen s) sess.msgs).action.reconnected := by
                rw [hmsgs.2, hopen]
            _ ≤ _ := wsClose_reconnected_le ..
      · rw [if_neg hrec, wsClose_payloadSends, hmsgs.1, hopen]

/-- C4: for a WebSocket invocation, (i) a close with abnormal code 1006
while fewer than `MAX_RECONNECTIONS = 3` reconnections have been used takes
the reconnect branch: exactly one reconnect (the counter increases by
exactly one, the same invocation is re-run) and the promise is not settled
by that closure; (ii) an open after any reconnect (`reconnected ≠ 0`) never
sends the initial payload; (iii) across a whole invocation — any number of
sessions chained by reconnects — the initial payload is sent at most
once. -/
theorem webSocket_reconnect_payload_once :
    MAX_RECONNECTIONS = 3 ∧
    (∀ s : WsState, ∀ code : Nat,
      s.action.reconnected < MAX_RECONNECTIONS → code = 1006 →
      (wsClose s code).2 = true ∧
        (wsClose s code).1.action.reconnected = s.action.reconnected + 1 ∧
        (wsClose s code).1.settled = s.settled) ∧
    (∀ s : WsState, s.action.reconnected ≠ 0 →
      (wsOpen s).payloadSends = s.payloadSends) ∧
    (∀ a : WebSocketAction, a.reconnected = 0 → ∀ sessions : List WsSession,
      (wsRun { action := a, payloadSends := 0, settled := none }
          sessions).payloadSends ≤ 1) := by
  refine ⟨rfl, ?_, ?_, ?_⟩
  · intro s code hrec hcode
    have h : code = 1006 ∧ s.action.reconnected ≤ MAX_RECONNECTIONS :=
      ⟨hcode, Nat.le_of_lt hrec⟩
    simp [wsClose, h]
  · intro s h0
    have : ¬ (s.action.data.isSome ∧ s.action.reconnected = 0) := by
      rintro ⟨-, h⟩; exact h0 h
    simp [wsOpen, this]
  · intro a h0 sessions
    cases sessions with
    | nil => exact Nat.zero_le 1
    | cons sess rest =>
        rw [wsRun]
        set s0 : WsState := { action := a, payloadSends := 0, settled := none }
          with hs0
        have hopen : (wsOpen s0).payloadSends ≤ 1 := by
          unfold wsOpen
          by_cases h : s0.action.data.isSome = true ∧ s0.action.reconnected = 0
          · rw [if_pos h]
          · rw [if_neg h]; exact Nat.zero_le 1
        have hmsgs := wsRunMsgs_sends_reconnected sess.msgs (wsOpen s0)
        by_cases hrec : (wsClose (wsRunMsgs (wsOpen s0) sess.msgs)
            sess.closeCode).2
        · rw [if_pos hrec]
          by_cases hrec1 : 1 ≤ (wsClose (wsRunMsgs (wsOpen s0) sess.msgs)
              sess.closeCode).1.action.reconnected
          · rw [wsRun_sends_frozen rest _ hrec1, wsClose_payloadSends,
              hmsgs.1]
            exact hopen
          · exfalso
            apply hrec1
            have : (wsClose (wsRunMsgs (wsOpen s0) sess.msgs)
                sess.closeCode).2 = true →
                (wsClose (wsRunMsgs (wsOpen s0) sess.msgs)
                  sess.closeCode).1.action.reconnected =
                  (wsRunMsgs (wsOpen s0) sess.msgs).action.reconnected + 1 :=
              by
                intro ht
                by_cases h : sess.closeCode = 1006 ∧
                    (wsRunMsgs (wsOpen s0)
                        sess.msgs).action.reconnected ≤ MAX_RECONNECTIONS
                · simp [wsClose, h]
                · exfalso
                  by_cases hc : (wsRunMsgs (wsOpen s0)
                        sess.msgs).action.receivedMessages.length =
                      (wsRunMsgs (wsOpen s0)
                        sess.msgs).action.expectedNumberOfMessages <;>
                    simp [wsClose, h, hc] at ht
            rw [this hrec]
            omega
        · rw [if_neg hrec, wsClose_payloadSends, hmsgs.1]
          exact hopen

/-- A concrete WebSocket action with a configured payload, expecting one
message and no filters. -/
def wsPayloadAction : WebSocketAction :=
  { data := some "hello", expectedNumberOfMessages := 1,
    messageFilter := none }

/-- Witness for `webSocket_reconnect_payload_once` at concrete inputs: a
close with code 1006 at zero used reconnections reconnects without settling,
and over two sessions chained by that abnormal closure the initial payload
goes out exactly once (not twice). -/
theorem webSocket_reconnect_payload_once_witness :
    (wsClose { action := wsPayloadAction, payloadSends := 1, settled := none }
          1006).2 = true ∧
    (wsRun { action := wsPayloadAction, payloadSends := 0, settled := none }
        [⟨[], 1006⟩, ⟨[⟨1⟩], 1000⟩]).payloadSends ≤ 1 :=
  ⟨(webSocket_reconnect_payload_once.2.1
      { action := wsPayloadAction, payloadSends := 1, settled := none }
      1006 (by decide) rfl).1,
    webSocket_reconnect_payload_once.2.2.2 wsPayloadAction rfl
      [⟨[], 1006⟩, ⟨[⟨1⟩], 1000⟩]⟩

/-- A fresh MQTT subscribe invocation state over an action expecting two
messages, no filters configured. -/
def mqttFreshTwoExpected : MqttInvocationState :=
  { action := { expectedNumberOfMessages := 2, messageFilter := none },
    settled := none }

/-- C9, counterexample to the claim as stated.  The claim says the Action
value is never mutated during execution.  But `numberOfReceivedMessages` is
a field of the `MqttAction` object itself (MqttAction.ts line 38), and the
message handler increments it (line 235): after one relevant message the
action value differs from the definition it started as. -/
theorem mqttAction_mutation_counterexample :
    (mqttStep mqttFreshTwoExpected
        (.message ⟨0⟩)).action.numberOfReceivedMessages ≠
      mqttFreshTwoExpected.action.numberOfReceivedMessages := by
  decide

/-- C9, amended: execution state lives on the action definitions themselves
and is mutated during execution.  (i) The MQTT message handler increments
the action's own `numberOfReceivedMessages` field (configuration fields are
untouched); (ii) the WebSocket reconnect branch increments the action's own
`reconnected` field; (iii) the carried-over counter is visible to a later
invocation of the same action object: a fresh `invoke` whose action already
holds a count equal to the expected count resolves at the first close
without receiving anything, so one Action definition is not safely
re-invocable. -/
theorem executionState_lives_on_action :
    (∀ s : MqttInvocationState, ∀ m : Msg,
      isMessageRelevant s.action m = true →
      (mqttStep s (.message m)).action.numberOfReceivedMessages =
          s.action.numberOfReceivedMessages + 1 ∧
        (mqttStep s (.message m)).action.expectedNumberOfMessages =
          s.action.expectedNumberOfMessages ∧
        (mqttStep s (.message m)).action.messageFilter =
          s.action.messageFilter) ∧
    (∀ s : WsState, ∀ code : Nat,
      code = 1006 → s.action.reconnected ≤ MAX_RECONNECTIONS →
      (wsClose s code).1.action.reconnected = s.action.reconnected + 1) ∧
    (∀ a : MqttAction,
      a.numberOfReceivedMessages = a.expectedNumberOfMessages →
      (mqttRun a [MqttEvent.close]).settled = some Settled.resolved) := by
  refine ⟨?_, ?_, ?_⟩
  · intro s m h
    exact ⟨by simp [mqttStep, h], (mqttStep_config s (.message m)).1,
      (mqttStep_config s (.message m)).2⟩
  · intro s code hcode hle
    have h : code = 1006 ∧ s.action.reconnected ≤ MAX_RECONNECTIONS :=
      ⟨hcode, hle⟩
    simp [wsClose, h]
  · intro a h
    simp [mqttRun, mqttRunFrom, mqttStep, h, settle]

/-- Witness for `executionState_lives_on_action`: a relevant message bumps
the on-action counter from 0 to 1, and an action object carrying a leftover
count of 2 with expected 2 resolves a brand-new invocation at the first
close without any message. -/
theorem executionState_lives_on_action_witness :
    (mqttStep mqttFreshTwoExpected
        (.message ⟨0⟩)).action.numberOfReceivedMessages = 0 + 1 ∧
    (mqttRun
        { expectedNumberOfMessages := 2, messageFilter := none,
          numberOfReceivedMessages := 2 }
        [MqttEvent.close]).settled = some Settled.resolved :=
  ⟨(executionState_lives_on_action.1 mqttFreshTwoExpected ⟨0⟩ (by decide)).1,
    executionState_lives_on_action.2.2
      { expectedNumberOfMessages := 2, messageFilter := none,
        numberOfReceivedMessages := 2 } rfl⟩

/-! ## MQTT publish action (src/model/MqttPublishAction.ts) -/

/-- Events seen by one publish invocation after connecting: the publish
callback succeeds or reports an error, or the client emits a connection
error. -/
inductive MqttPublishEvent where
  | publishOk
  | publishError
  | connectionError
deriving DecidableEq, Repr

/-- `publishError` and `connectionError` reach an error logger. -/
def MqttPublishEvent.isError : MqttPublishEvent → Bool
  | .publishOk => false
  | .publishError => true
  | .connectionError => true

/-- Observable effects of `invokeAsync` (MqttPublishAction.ts lines
58-107): error log lines, diagram entries, and whether `client.end()` was
called. -/
structure MqttPublishState where
  errorsLogged : Nat
  diagramEntries : Nat
  clientEnded : Bool
deriving DecidableEq, Repr

/-- Handler semantics of the publish invocation:
* publish success (lines 91-95): debug log, diagram entry, `client.end()`;
* publish error (lines 89-90): error log only — no reject, and the client
  is not even closed;
* connection error (lines 104-106): error log only — no reject. -/
def mqttPublishStep (s : MqttPublishState) :
    MqttPublishEvent → MqttPublishState
  | .publishOk =>
      { s with diagramEntries := s.diagramEntries + 1, clientEnded := true }
  | .publishError => { s with errorsLogged := s.errorsLogged + 1 }
  | .connectionError => { s with errorsLogged := s.errorsLogged + 1 }

/-- Result of `MqttPublishAction.invoke` (lines 45-51): the executor runs
`invokeAsync` and then immediately calls `resolve()`; the handlers have no
access to `resolve`/`reject`, so the promise is fulfilled no matter what
the events do. -/
structure MqttPublishResult where
  settled : Option Settled
  finalState : MqttPublishState
deriving DecidableEq, Repr

/-- A whole publish invocation over its event trace. -/
def mqttPublishInvoke (events : List MqttPublishEvent) : MqttPublishResult :=
  { settled := some .resolved,
    finalState :=
      events.foldl mqttPublishStep
        { errorsLogged := 0, diagramEntries := 0, clientEnded := false } }

theorem mqttPublishStep_errors (events : List MqttPublishEvent) :
    ∀ s : MqttPublishState,
      (events.foldl mqttPublishStep s).errorsLogged =
        s.errorsLogged + events.countP (·.isError) := by
  induction events with
  | nil => intro s; simp
  | cons e es ih =>
      intro s
      rw [List.foldl_cons, ih, List.countP_cons]
      cases e <;> simp [mqttPublishStep, MqttPublishEvent.isError] <;> omega

/-- C5: an MQTT publish invocation always reports success — its promise is
fulfilled whatever happens — while every publish or connection error is
logged (the number of error log lines equals the number of error events):
errors never reject the invocation. -/
theorem mqttPublish_never_rejects (events : List MqttPublishEvent) :
    (mqttPublishInvoke events).settled = some Settled.resolved ∧
    (mqttPublishInvoke events).finalState.errorsLogged =
      events.countP (·.isError) := by
  refine ⟨rfl, ?_⟩
  rw [mqttPublishInvoke]
  rw [mqttPublishStep_errors]
  exact Nat.zero_add _

/-! ## Scenario runner (src/index.ts, `invokeActionsSynchronously`) -/

/-- How awaiting one action's completion promise ends. -/
inductive ActionOutcome where
  | success
  | failure
deriving DecidableEq, Repr

/-- What the runner loop consumes of one action: its description and how
its invocation settles.  (The loop never consults `allowFailure` or
`invokeEvenOnFail`.) -/
structure RunnerAction where
  description : String
  outcome : ActionOutcome
deriving DecidableEq, Repr

/-- `TestResult` (src/model/TestResult.ts) restricted to the fields the
fail-fast behaviour concerns: the action description and the pass flag. -/
structure TestResult where
  action : String
  successful : Bool
deriving DecidableEq, Repr

/-- State of the `invokeActionsSynchronously` loop (src/index.ts lines
126-160): the scenario's result log, the `successful` flag, and the
descriptions of the actions invoked so far. -/
structure RunnerState where
  results : List TestResult
  successful : Bool
  invoked : List String
deriving DecidableEq, Repr

/-- The `for (const action of scenario.actions)` loop: invoke the action,
await it; on fulfilment push a successful `TestResult` and continue; on
rejection `handleError` (lines 100-124) pushes a failed `TestResult` and
clears `successful`, and the `if (!successful) break;` at line 159 abandons
the remaining actions. -/
def runnerLoop (s : RunnerState) : List RunnerAction → RunnerState
  | [] => s
  | a :: rest =>
      let s1 := { s with invoked := s.invoked ++ [a.description] }
      match a.outcome with
      | .success =>
          runnerLoop
            { s1 with
              results := s1.results ++ [⟨a.description, true⟩] } rest
      | .failure =>
          { s1 with
            results := s1.results ++ [⟨a.description, false⟩],
            successful := false }

/-- One scenario run over its action list, from the fresh state (lines
76-97: empty result list, `successful = true`). -/
def runScenarioActions (actions : List RunnerAction) : RunnerState :=
  runnerLoop { results := [], successful := true, invoked := [] } actions

theorem runnerLoop_fail_first (pre : List RunnerAction) :
    ∀ s : RunnerState, (∀ x ∈ pre, x.outcome = ActionOutcome.success) →
      ∀ f : RunnerAction, f.outcome = ActionOutcome.failure →
      ∀ post : List RunnerAction,
      runnerLoop s (pre ++ f :: post) =
        { results := s.results ++
            pre.map (fun a => ⟨a.description, true⟩) ++
            [⟨f.description, false⟩],
          successful := false,
          invoked := s.invoked ++ pre.map RunnerAction.description ++
            [f.description] } := by
  induction pre with
  | nil =>
      intro s _ f hf post
      simp only [List.nil_append, List.map_nil, List.append_nil]
      rw [runnerLoop, hf]
  | cons a pre ih =>
      intro s hpre f hf post
      have ha : a.outcome = ActionOutcome.success :=
        hpre a (List.mem_cons_self ..)
      rw [List.cons_append, runnerLoop, ha,
        ih _ (fun x hx => hpre x (List.mem_cons_of_mem _ hx)) f hf post]
      simp [List.append_assoc]

/-- C2: once the first action failure is observed, the scenario run is
fail-fast: exactly the actions up to and including the failing one are
invoked (the remaining ones are abandoned), the failing action gets a
failed `TestResult` appended after the successful ones, and the scenario is
marked failed. -/
theorem scenarioRunner_failFast (pre : List RunnerAction) (f : RunnerAction)
    (post : List RunnerAction)
    (hpre : ∀ x ∈ pre, x.outcome = ActionOutcome.success)
    (hf : f.outcome = ActionOutcome.failure) :
    (runScenarioActions (pre ++ f :: post)).invoked =
        pre.map RunnerAction.description ++ [f.description] ∧
      (runScenarioActions (pre ++ f :: post)).results =
        pre.map (fun a => ⟨a.description, true⟩) ++
          [⟨f.description, false⟩] ∧
      (runScenarioActions (pre ++ f :: post)).successful = false := by
  rw [runScenarioActions, runnerLoop_fail_first pre _ hpre f hf post]
  exact ⟨by simp, by simp, rfl⟩

/-- Witness for `scenarioRunner_failFast`: in a scenario of three actions
whose second fails, only the first two are invoked, the log is one pass
and one fail, and the scenario is failed. -/
theorem scenarioRunner_failFast_witness :
    (runScenarioActions
          [⟨"a", ActionOutcome.success⟩, ⟨"b", ActionOutcome.failure⟩,
            ⟨"c", ActionOutcome.success⟩]).invoked = ["a", "b"] ∧
      (runScenarioActions
          [⟨"a", ActionOutcome.success⟩, ⟨"b", ActionOutcome.failure⟩,
            ⟨"c", ActionOutcome.success⟩]).successful = false :=
  ⟨(scenarioRunner_failFast [⟨"a", ActionOutcome.success⟩]
      ⟨"b", ActionOutcome.failure⟩ [⟨"c", ActionOutcome.success⟩]
      (by decide) rfl).1,
    (scenarioRunner_failFast [⟨"a", ActionOutcome.success⟩]
      ⟨"b", ActionOutcome.failure⟩ [⟨"c", ActionOutcome.success⟩]
      (by decide) rfl).2.2⟩

/-! ## REST action (model/RestAction.ts) -/

/-- Response headers, abstracted to an identity (validation predicates and
variable expressions are functions of them). -/
structure RespHeaders where
  id : Nat
deriving DecidableEq, Repr

/-- Parsed response body (`parseResponseBody` output), abstracted to an
identity. -/
structure RespBody where
  id : Nat
deriving DecidableEq, Repr

/-- One entry of `responseValidation`, classified by its prefix as in the
source's `.filter(v => v.startsWith('head.'))` / `'res.'`: a `head.`
predicate evaluated against the response headers, a `res.` predicate
evaluated against the parsed body, or an entry with neither prefix (ignored
by both validators).  The `Option Bool` result models `eval`: `none` is a
thrown evaluation error, `some b` a result of truthiness `b`. -/
inductive RestValidation where
  | head (check : RespHeaders → Option Bool)
  | res (check : RespBody → Option Bool)
  | other

/-- Truthy non-throwing evaluation. -/
def validationPasses : Option Bool → Bool
  | some true => true
  | _ => false

/-- `validateHeaders` (lines 703-737) calls `reject` iff some `head.`
validation evaluates falsy or throws; it iterates all validations either
way. -/
def headValidationRejects (vals : List RestValidation) (h : RespHeaders) :
    Bool :=
  vals.any fun v =>
    match v with
    | .head check => ! validationPasses (check h)
    | _ => false

/-- `validateBody` (lines 739-765) throws iff some `res.` validation
evaluates falsy or throws. -/
def bodyValidationRejects (vals : List RestValidation) (b : RespBody) :
    Bool :=
  vals.any fun v =>
    match v with
    | .res check => ! validationPasses (check b)
    | _ => false

/-- One entry of the action's `variables` map, classified by the prefix
tests of `updateScenarioCache` (lines 684-693): an expression starting with
`res` (evaluated against the parsed body), one starting with `head`
(evaluated against the response headers), or neither (never stored). -/
inductive VarExpr where
  | fromRes (f : RespBody → String)
  | fromHead (g : RespHeaders → String)
  | otherExpr

/-- The scenario's variable cache (`scenario.cache`); `cacheSet` models
`Map.set` (last write wins), `cacheGet` models `Map.get`. -/
abbrev Cache := List (String × String)

def cacheSet (c : Cache) (k v : String) : Cache := (k, v) :: c

def cacheGet (c : Cache) (k : String) : Option String :=
  (c.find? (fun p => p.1 == k)).map (·.2)

/-- `updateScenarioCache({ head })` (line 880): `res` is `undefined` there,
so only entries whose expression starts with `head` are stored. -/
def updateCacheWithHead (vars : Option (List (String × VarExpr)))
    (h : RespHeaders) (c : Cache) : Cache :=
  match vars with
  | none => c
  | some l =>
      l.foldl
        (fun c p =>
          match p.2 with
          | .fromHead g => cacheSet c p.1 (g h)
          | _ => c) c

/-- `updateScenarioCache({ res: parsedResponseBody })` (lines 918-920):
`head` is `undefined` there, so only entries whose expression starts with
`res` are stored. -/
def updateCacheWithRes (vars : Option (List (String × VarExpr)))
    (b : RespBody) (c : Cache) : Cache :=
  match vars with
  | none => c
  | some l =>
      l.foldl
        (fun c p =>
          match p.2 with
          | .fromRes f => cacheSet c p.1 (f b)
          | _ => c) c

/-- The invocation-relevant configuration of a `RestAction`.  The source's
`variables` field (aliased `scenarioVariables` inside `invoke`) is named
`scenarioVariables` here because `variables` is reserved in Lean. -/
structure RestAction where
  expectedStatusCodes : List Nat
  responseValidation : List RestValidation
  scenarioVariables : Option (List (String × VarExpr))

/-- Constructor default (line 558):
`expectedStatusCodes = actionDef.expectedStatusCodes ?? [200, 201, 204]`. -/
def defaultExpectedStatusCodes : List Nat := [200, 201, 204]

/-- `RestAction`'s constructor on an action definition: missing
`expectedStatusCodes` default to `[200, 201, 204]`, missing
`responseValidation` to `[]` (line 556). -/
def RestAction.ofDefinition (expectedStatusCodes : Option (List Nat))
    (responseValidation : Option (List RestValidation))
    (vars : Option (List (String × VarExpr))) : RestAction :=
  { expectedStatusCodes := expectedStatusCodes.getD defaultExpectedStatusCodes,
    responseValidation := responseValidation.getD [],
    scenarioVariables := vars }

/-- An HTTP response as seen by the `.then` handler: status code, headers,
and the body when not `null`/`undefined`. -/
structure RestResponse where
  statusCode : Nat
  headers : RespHeaders
  body : Option RespBody

/-- Outcome of one REST invocation: the settlement of its promise and the
scenario cache after the handler ran. -/
structure RestInvocationResult where
  settled : Option Settled
  cache : Cache

/-- The response handler of `RestAction.invoke` (lines 845-950):
* status code not in `expectedStatusCodes` (lines 932-945): `reject()`,
  cache untouched;
* otherwise: `validateHeaders` (may `reject`), then
  `updateScenarioCache({head})` regardless; if a body is present,
  `validateBody` inside try/catch (a failure `reject`s) and then
  `updateScenarioCache({res})` regardless, then `resolve()`; with no body,
  `resolve()` directly.  The promise keeps the first settlement. -/
def restInvoke (a : RestAction) (resp : RestResponse) (c0 : Cache) :
    RestInvocationResult :=
  if resp.statusCode ∈ a.expectedStatusCodes then
    let s1 : Option Settled :=
      if headValidationRejects a.responseValidation resp.headers then
        some .rejected
      else none
    let c1 := updateCacheWithHead a.scenarioVariables resp.headers c0
    match resp.body with
    | some b =>
        let s2 : Option Settled :=
          if bodyValidationRejects a.responseValidation b then
            settle s1 .rejected
          else s1
        { settled := settle s2 .resolved,
          cache := updateCacheWithRes a.scenarioVariables b c1 }
    | none => { settled := settle s1 .resolved, cache := c1 }
  else { settled := some .rejected, cache := c0 }

/-- C3: a response whose status code is not in the action's
`expectedStatusCodes` always rejects the invocation — whatever the
validations would say — and an action definition without configured
expected status codes gets the default set {200, 201, 204}. -/
theorem restUnexpectedStatus_fails (a : RestAction) (resp : RestResponse)
    (c : Cache) (rv : Option (List RestValidation))
    (vs : Option (List (String × VarExpr)))
    (h : resp.statusCode ∉ a.expectedStatusCodes) :
    (restInvoke a resp c).settled = some Settled.rejected ∧
      (RestAction.ofDefinition none rv vs).expectedStatusCodes =
        [200, 201, 204] := by
  exact ⟨by simp [restInvoke, h], rfl⟩

/-- A REST action accepting the defaults, with a body validation that
passes on every body. -/
def restDefaultAction : RestAction :=
  RestAction.ofDefinition none (some [RestValidation.res fun _ => some true])
    none

/-- Witness for `restUnexpectedStatus_fails`: a 404 response whose body
would pass the configured validation still rejects under the defaulted
expected set {200, 201, 204}. -/
theorem restUnexpectedStatus_fails_witness :
    (restInvoke restDefaultAction
          { statusCode := 404, headers := ⟨0⟩, body := some ⟨0⟩ }
          []).settled = some Settled.rejected ∧
      bodyValidationRejects restDefaultAction.responseValidation ⟨0⟩ =
        false :=
  ⟨(restUnexpectedStatus_fails restDefaultAction
      { statusCode := 404, headers := ⟨0⟩, body := some ⟨0⟩ } [] none none
      (by decide)).1, by decide⟩

/-- C10: when the status code is expected, the scenario-cache writes do not
depend on the validations at all — the cache after the invocation equals
the cache of the same invocation with no validations configured — and a
failing header or body validation still rejects the promise.  So a
rejected REST invocation can leave new entries in the scenario's variable
cache. -/
theorem restCacheWrites_survive_validation_failure (a : RestAction)
    (resp : RestResponse) (c : Cache)
    (hst : resp.statusCode ∈ a.expectedStatusCodes) :
    (restInvoke a resp c).cache =
        (restInvoke { a with responseValidation := [] } resp c).cache ∧
      (headValidationRejects a.responseValidation resp.headers = true →
        (restInvoke a resp c).settled = some Settled.rejected) ∧
      (∀ b, resp.body = some b →
        bodyValidationRejects a.responseValidation b = true →
        (restInvoke a resp c).settled = some Settled.rejected) := by
  refine ⟨?_, ?_, ?_⟩
  · cases hb : resp.body with
    | none => simp [restInvoke, hst, hb]
    | some b => simp [restInvoke, hst, hb]
  · intro hh
    cases hb : resp.body with
    | none => simp [restInvoke, hst, hb, hh, settle]
    | some b =>
        by_cases hbv : bodyValidationRejects a.responseValidation b <;>
          simp [restInvoke, hst, hb, hh, hbv, settle]
  · intro b hb hbv
    by_cases hh : headValidationRejects a.responseValidation resp.headers <;>
      simp [restInvoke, hst, hb, hh, hbv, settle]

/-- A REST action whose body validation always fails and which stores a
`res`-sourced variable `x`. -/
def restFailingValidationAction : RestAction :=
  { expectedStatusCodes := [200],
    responseValidation := [RestValidation.res fun _ => some false],
    scenarioVariables := some [("x", VarExpr.fromRes fun _ => "v")] }

/-- Witness for `restCacheWrites_survive_validation_failure`: a 200
response whose body fails validation rejects the invocation, yet the cache
now holds the `res`-sourced variable `x`. -/
theorem restCacheWrites_survive_validation_failure_witness :
    (restInvoke restFailingValidationAction
          { statusCode := 200, headers := ⟨0⟩, body := some ⟨7⟩ }
          []).settled = some Settled.rejected ∧
      cacheGet
          (restInvoke restFailingValidationAction
              { statusCode := 200, headers := ⟨0⟩, body := some ⟨7⟩ }
              []).cache "x" = some "v" :=
  ⟨(restCacheWrites_survive_validation_failure restFailingValidationAction
        { statusCode := 200, headers := ⟨0⟩, body := some ⟨7⟩ } []
        (by decide)).2.2 ⟨7⟩ rfl (by decide),
    by decide⟩

/-! ### REST transport retry (RestAction.ts lines 831-843) -/

/-- The retry-relevant entries of `requestOptions` built by
`RestAction.invoke`: `maxAttempts: 3`, `retryDelay: 1000`. -/
structure RequestRetryOptions where
  maxAttempts : Nat
  retryDelay : Nat
deriving DecidableEq, Repr

/-- The literal configuration from the source (lines 838-839). -/
def restRequestOptions : RequestRetryOptions :=
  { maxAttempts := 3, retryDelay := 1000 }

/-- How one attempt of the underlying HTTP request ends: a transport-level
(connection) failure, or a response with some status code. -/
inductive AttemptOutcome where
  | transportFailure
  | response (statusCode : Nat)
deriving DecidableEq, Repr

/-- Transcript of a retrying request: the status code of the response that
ended it (`none` if every attempt failed at transport level), the number of
attempts made, and the total backoff delay waited between attempts. -/
structure RetryRunResult where
  result : Option Nat
  attemptsMade : Nat
  totalDelay : Nat
deriving DecidableEq, Repr

/-- Modelled from the spec: the retrying HTTP transport is the external
`requestretry` package, not part of this repository; only its
configuration (`restRequestOptions`) is.  Per the spec, the request is
retried on transport-level failure only, up to `maxAttempts` attempts with
a fixed `retryDelay` backoff between attempts; any received response —
whatever its status code — ends the run immediately.  `f i` is the outcome
of attempt `i`; the first argument is the number of attempts remaining. -/
def retryRun (f : Nat → AttemptOutcome) (opts : RequestRetryOptions) :
    Nat → Nat → RetryRunResult
  | 0, _ => { result := none, attemptsMade := 0, totalDelay := 0 }
  | n + 1, i =>
      match f i with
      | .response s => { result := some s, attemptsMade := 1, totalDelay := 0 }
      | .transportFailure =>
          if n = 0 then { result := none, attemptsMade := 1, totalDelay := 0 }
          else
            let r := retryRun f opts n (i + 1)
            { result := r.result, attemptsMade := r.attemptsMade + 1,
              totalDelay := r.totalDelay + opts.retryDelay }

/-- The request issued by `RestAction.invoke` with its configured retry
options. -/
def restRequest (f : Nat → AttemptOutcome) : RetryRunResult :=
  retryRun f restRequestOptions restRequestOptions.maxAttempts 0

theorem retryRun_attempts_le (f : Nat → AttemptOutcome)
    (opts : RequestRetryOptions) :
    ∀ n i, (retryRun f opts n i).attemptsMade ≤ n := by
  intro n
  induction n with
  | zero => intro i; exact Nat.le_refl 0
  | succ n ih =>
      intro i
      rw [retryRun]
      cases hf : f i with
      | response s => exact Nat.succ_le_succ (Nat.zero_le n)
      | transportFailure =>
          by_cases hn : n = 0
          · simp [hn]
          · simp only [if_neg hn]
            exact Nat.succ_le_succ (ih (i + 1))

theorem retryRun_failures_before_last (f : Nat → AttemptOutcome)
    (opts : RequestRetryOptions) :
    ∀ n i j, j + 1 < (retryRun f opts n i).attemptsMade →
      f (i + j) = AttemptOutcome.transportFailure := by
  intro n
  induction n with
  | zero => intro i j h; exact absurd h (by simp [retryRun])
  | succ n ih =>
      intro i j h
      rw [retryRun] at h
      cases hf : f i with
      | response s => rw [hf] at h; simp at h
      | transportFailure =>
          rw [hf] at h
          by_cases hn : n = 0
          · rw [if_pos hn] at h; simp at h
          · rw [if_neg hn] at h
            simp only at h
            cases j with
            | zero => simpa using hf
            | succ j' =>
                have := ih (i + 1) j' (by omega)
                have hidx : i + 1 + j' = i + (j' + 1) := by omega
                rwa [hidx] at this

theorem retryRun_first_response (f : Nat → AttemptOutcome)
    (opts : RequestRetryOptions) :
    ∀ n i k s, k < n →
      (∀ j, j < k → f (i + j) = AttemptOutcome.transportFailure) →
      f (i + k) = AttemptOutcome.response s →
      retryRun f opts n i =
        { result := some s, attemptsMade := k + 1,
          totalDelay := k * opts.retryDelay } := by
  intro n
  induction n with
  | zero => intro i k s hk; omega
  | succ n ih =>
      intro i k s hk hfail hresp
      rw [retryRun]
      cases k with
      | zero =>
          rw [Nat.add_zero] at hresp
          rw [hresp]
          simp
      | succ k' =>
          have h0 : f i = AttemptOutcome.transportFailure := by
            simpa using hfail 0 (Nat.succ_pos k')
          rw [h0]
          have hn : ¬ n = 0 := by omega
          rw [if_neg hn]
          have hih := ih (i + 1) k' s (by omega)
            (fun j hj => by
              have := hfail (j + 1) (by omega)
              have hidx : i + (j + 1) = i + 1 + j := by omega
              rwa [hidx] at this)
            (by
              have hidx : i + (k' + 1) = i + 1 + k' := by omega
              rwa [hidx] at hresp)
          simp only [hih]
          have hmul : k' * opts.retryDelay + opts.retryDelay =
              (k' + 1) * opts.retryDelay := (Nat.succ_mul ..).symm
          rw [hmul]

/-- C7: the REST request is configured with `maxAttempts = 3` and
`retryDelay = 1000` ms; at most 3 attempts are ever made; every attempt
that was followed by another one had failed at transport level (so only
transport failures are retried); and the first attempt that yields a
response — whatever its status code, matching or not — ends the run with
that response after a fixed 1000 ms delay per preceding retry. -/
theorem restRetry_policy (f : Nat → AttemptOutcome) :
    restRequestOptions = { maxAttempts := 3, retryDelay := 1000 } ∧
      (restRequest f).attemptsMade ≤ 3 ∧
      (∀ i, i + 1 < (restRequest f).attemptsMade →
        f i = AttemptOutcome.transportFailure) ∧
      (∀ k s, k < 3 →
        (∀ j, j < k → f j = AttemptOutcome.transportFailure) →
        f k = AttemptOutcome.response s →
        restRequest f =
          { result := some s, attemptsMade := k + 1,
            totalDelay := k * 1000 }) := by
  refine ⟨rfl, retryRun_attempts_le f restRequestOptions 3 0, ?_, ?_⟩
  · intro i h
    have := retryRun_failures_before_last f restRequestOptions 3 0 i h
    rwa [Nat.zero_add] at this
  · intro k s hk hfail hresp
    exact retryRun_first_response f restRequestOptions 3 0 k s hk
      (fun j hj => by rw [Nat.zero_add]; exact hfail j hj)
      (by rwa [Nat.zero_add])

/-- Witness for `restRetry_policy`: one transport failure followed by a 500
response (outside the default expected set) stops after 2 attempts with
result 500 — no retry on a non-matching status — having waited one 1000 ms
backoff. -/
theorem restRetry_policy_witness :
    restRequest
        (fun i => if i = 0 then .transportFailure else .response 500) =
      { result := some 500, attemptsMade := 2, totalDelay := 1000 } :=
  (restRetry_policy
      (fun i => if i = 0 then .transportFailure else .response 500)).2.2.2
    1 500 (by decide) (by decide) (by decide)

/-! ### REST template merge (RestAction.fromTemplate, lines 588-621) -/

/-- A JS object of string entries, as an ordered association list (first
match wins on lookup). -/
abbrev Smap := List (String × String)

/-- JS property lookup. -/
def jsGet (m : Smap) (k : String) : Option String :=
  (m.find? (fun p => p.1 == k)).map (·.2)

/-- JS object spread `{...a, ...b}`: b's keys win over a's, a's other keys
are kept. -/
def jsSpread (a b : Smap) : Smap :=
  a.filter (fun p => (jsGet b p.1).isNone) ++ b

theorem jsGet_cons (x : String × String) (l : Smap) (k : String) :
    jsGet (x :: l) k = if x.1 == k then some x.2 else jsGet l k := by
  by_cases h : (x.1 == k) = true <;> simp [jsGet, List.find?_cons, h]

theorem jsSpread_cons_pos {b : Smap} {x : String × String}
    (xs : List (String × String)) (h : (jsGet b x.1).isNone = true) :
    jsSpread (x :: xs) b = x :: jsSpread xs b := by
  simp [jsSpread, List.filter_cons, h]

theorem jsSpread_cons_neg {b : Smap} {x : String × String}
    (xs : List (String × String)) (h : (jsGet b x.1).isNone = false) :
    jsSpread (x :: xs) b = jsSpread xs b := by
  simp [jsSpread, List.filter_cons, h]

/-- Lookup in a spread: the second object's value if it has the key, else
the first object's. -/
theorem jsGet_jsSpread (a b : Smap) (k : String) :
    jsGet (jsSpread a b) k = (jsGet b k).or (jsGet a k) := by
  induction a with
  | nil =>
      show jsGet b k = (jsGet b k).or (jsGet [] k)
      cases jsGet b k <;> rfl
  | cons x xs ih =>
      by_cases hqx : (jsGet b x.1).isNone = true
      · rw [jsSpread_cons_pos xs hqx, jsGet_cons, jsGet_cons]
        by_cases hxk : (x.1 == k) = true
        · have hx1 : x.1 = k := eq_of_beq hxk
          have hbk : jsGet b k = none := by
            rw [← hx1]
            exact Option.isNone_iff_eq_none.mp hqx
          simp only [if_pos hxk, hbk]
          rfl
        · simp only [if_neg hxk]
          exact ih
      · rw [jsSpread_cons_neg xs (Bool.eq_false_iff.mpr hqx), ih, jsGet_cons]
        by_cases hxk : (x.1 == k) = true
        · have hx1 : x.1 = k := eq_of_beq hxk
          obtain ⟨v, hv⟩ : ∃ v, jsGet b k = some v := by
            rw [← hx1]
            cases hjb : jsGet b x.1 with
            | none => exact absurd (by rw [hjb]; rfl) hqx
            | some v => exact ⟨v, rfl⟩
          simp only [if_pos hxk, hv]
          rfl
        · simp only [if_neg hxk]

/-- The associative fields of a constructed `RestAction` that
`fromTemplate` merges.  The source's `variables` field is named `varsMap`
here (`variables` is reserved in Lean).  An `Option` field is `none` when
the JS value is `undefined`/`null` (falsy); an empty object is `some []`
(truthy). -/
structure RestActionConf where
  queryParameters : Smap
  restHead : Option Smap
  form : Option Smap
  varsMap : Option Smap
deriving DecidableEq, Repr

/-- The override definition (`actionDef`) fields that `fromTemplate`
reads for the associative merges: `queryParameters`, `headers`, `restHead`
(used only in the no-template-headers fallback), `form`, `variables`
(as `varsMap`). -/
structure RestOverrideDef where
  queryParameters : Option Smap
  headers : Option Smap
  restHead : Option Smap
  form : Option Smap
  varsMap : Option Smap
deriving DecidableEq, Repr

/-- `RestAction.fromTemplate` (lines 588-621), associative fields:
* `queryParameters`: `{ ...template.queryParameters,
  ...actionDef.queryParameters }` (line 599);
* `headers`: `template.restHead ? { ...template.restHead,
  ...actionDef.headers } : actionDef.restHead` (lines 600-602);
* `form`: `template.form ? { ...template.form, ...actionDef.form } : null`
  (line 605);
* `variables`: `{ ...template.variables, ...actionDef.variables }`
  (line 612).
A spread of `undefined` contributes no keys, modelled by `Option.getD []`. -/
def RestActionConf.fromTemplate (actionDef : RestOverrideDef)
    (template : RestActionConf) : RestActionConf :=
  { queryParameters :=
      jsSpread template.queryParameters (actionDef.queryParameters.getD []),
    restHead :=
      match template.restHead with
      | some h => some (jsSpread h (actionDef.headers.getD []))
      | none => actionDef.restHead,
    form :=
      match template.form with
      | some f => some (jsSpread f (actionDef.form.getD []))
      | none => none,
    varsMap :=
      some (jsSpread (template.varsMap.getD [])
        (actionDef.varsMap.getD [])) }

/-- The merge rule the claim states for every associative field, written
from the claim's words (for comparison with `RestActionConf.fromTemplate`):
the shallow merge of the template's entries with the override's, the
override's keys winning on conflict and keys absent in the override kept
from the template. -/
def specShallowMerge (templateField overrideField : Option Smap) : Smap :=
  jsSpread (templateField.getD []) (overrideField.getD [])

/-- A template action with headers but no `form`. -/
def restTemplateNoForm : RestActionConf :=
  { queryParameters := [],
    restHead := some [("Authorization", "t"), ("X-Trace", "y")],
    form := none, varsMap := none }

/-- An override definition that supplies a `form` and overrides only the
`Authorization` header. -/
def restOverrideWithForm : RestOverrideDef :=
  { queryParameters := none, headers := some [("Authorization", "u")],
    restHead := none, form := some [("a", "1")], varsMap := none }

/-- C8, counterexample to the claim as stated.  The claim says every
associative field of the produced action is the shallow merge of the
template's entries with the override's.  With a template that has no
`form`, the produced action's `form` is `null` (line 605's ternary) even
though the override's `form` has the entry `a = 1` that the shallow merge
would keep. -/
theorem restFromTemplate_merge_counterexample :
    (RestActionConf.fromTemplate restOverrideWithForm
          restTemplateNoForm).form ≠
        some (specShallowMerge restTemplateNoForm.form
          restOverrideWithForm.form) ∧
      jsGet (specShallowMerge restTemplateNoForm.form
          restOverrideWithForm.form) "a" = some "1" := by
  refine ⟨?_, by decide⟩
  intro h
  exact absurd h (by decide)

/-- C8, amended: `queryParameters` and `variables` are always the shallow
merge of template and override entries (override wins, absent keys kept);
`headers` and `form` are that shallow merge only when the template defines
the field; a template without headers yields the override's `restHead`
field instead of merging its `headers`, and a template without a `form`
yields an action without a `form` even if the override provides one.  (In
this pure embedding the merge builds a new record, so the template value
itself is unchanged.) -/
theorem restFromTemplate_merge (actionDef : RestOverrideDef)
    (template : RestActionConf) :
    (∀ k, jsGet (RestActionConf.fromTemplate actionDef
          template).queryParameters k =
        ((jsGet (actionDef.queryParameters.getD []) k).or
          (jsGet template.queryParameters k))) ∧
      (∀ k, jsGet ((RestActionConf.fromTemplate actionDef
            template).varsMap.getD []) k =
          ((jsGet (actionDef.varsMap.getD []) k).or
            (jsGet (template.varsMap.getD []) k))) ∧
      (∀ h0, template.restHead = some h0 → ∀ k,
        jsGet ((RestActionConf.fromTemplate actionDef
            template).restHead.getD []) k =
          ((jsGet (actionDef.headers.getD []) k).or (jsGet h0 k))) ∧
      (template.restHead = none →
        (RestActionConf.fromTemplate actionDef template).restHead =
          actionDef.restHead) ∧
      (∀ f0, template.form = some f0 → ∀ k,
        jsGet ((RestActionConf.fromTemplate actionDef
            template).form.getD []) k =
          ((jsGet (actionDef.form.getD []) k).or (jsGet f0 k))) ∧
      (template.form = none →
        (RestActionConf.fromTemplate actionDef template).form = none) := by
  refine ⟨?_, ?_, ?_, ?_, ?_, ?_⟩
  · intro k
    exact jsGet_jsSpread ..
  · intro k
    exact jsGet_jsSpread ..
  · intro h0 hh k
    simp only [RestActionConf.fromTemplate, hh, Option.getD_some]
    exact jsGet_jsSpread ..
  · intro hh
    simp only [RestActionConf.fromTemplate, hh]
  · intro f0 hf k
    simp only [RestActionConf.fromTemplate, hf, Option.getD_some]
    exact jsGet_jsSpread ..
  · intro hf
    simp only [RestActionConf.fromTemplate, hf]

/-- Witness for `restFromTemplate_merge`: overriding only
`headers.Authorization` on `restTemplateNoForm` preserves the other
templated header `X-Trace` and replaces `Authorization`. -/
theorem restFromTemplate_merge_witness :
    jsGet ((RestActionConf.fromTemplate restOverrideWithForm
          restTemplateNoForm).restHead.getD []) "X-Trace" = some "y" ∧
      jsGet ((RestActionConf.fromTemplate restOverrideWithForm
          restTemplateNoForm).restHead.getD []) "Authorization" =
        some "u" :=
  ⟨((restFromTemplate_merge restOverrideWithForm restTemplateNoForm).2.2.1
        [("Authorization", "t"), ("X-Trace", "y")] rfl "X-Trace").trans
      (by decide),
    ((restFromTemplate_merge restOverrideWithForm restTemplateNoForm).2.2.1
        [("Authorization", "t"), ("X-Trace", "y")] rfl "Authorization").trans
      (by decide)⟩
